import Mathlib

/-!
Verification of the op-succinct proposer core against its sources.

The definitions below are shallow embeddings of the Go functions in
proposer/op/proposer/prove.go and proposer/op/proposer/utils (the batch
decoder utilities).  Machine integers (uint64) are embedded as Nat with
explicit reduction modulo 2^64 at every arithmetic step, matching the
wrap-around semantics of Go.  Fallible code is embedded with Option or
Except; a Go runtime panic (division by zero) is embedded as the none
outcome.  Database operations of the ledger (the ent layer, which is not
part of the analyzed sources) are modelled from the specification where
a claim needs them; each such definition says so in its doc comment.
-/

/-- The uint64 modulus 2^64, used to embed wrap-around arithmetic of Go. -/
def U64 : Nat := 18446744073709551616

/-- Addition of two uint64 values with wrap-around, as in Go. -/
def add64 (a b : Nat) : Nat := (a + b) % U64

/-- Subtraction of two uint64 values with wrap-around, as in Go:
the borrow wraps modulo 2^64. -/
def sub64 (a b : Nat) : Nat := (a % U64 + U64 - b % U64) % U64

/-- Multiplication of two uint64 values with wrap-around, as in Go. -/
def mul64 (a b : Nat) : Nat := (a * b) % U64

theorem add64_eq_of_lt (a b : Nat) (h : a + b < U64) : add64 a b = a + b := by
  unfold add64
  exact Nat.mod_eq_of_lt h

theorem sub64_eq_of_le (a b : Nat) (hba : b ≤ a) (ha : a < U64) :
    sub64 a b = a - b := by
  unfold sub64 U64 at *
  omega

theorem sub64_self (a : Nat) : sub64 a a = 0 := by
  unfold sub64
  simp

/-- Proof request type, mirroring proofrequest.TypeSPAN and
proofrequest.TypeAGG of the ent schema. -/
inductive ProofType where
  | SPAN
  | AGG
deriving DecidableEq, Repr

/-- Proof request status, mirroring the status enum of the ent schema:
UNREQ, REQ, COMPLETE, FAILED. -/
inductive Status where
  | UNREQ
  | REQ
  | COMPLETE
  | FAILED
deriving DecidableEq, Repr

/-- A row of the proof request ledger (ent.ProofRequest).  Block numbers
and times are uint64 values embedded as Nat; proof bytes are a list of
byte values. -/
structure ProofRequest where
  id : Nat
  type : ProofType
  startBlock : Nat
  endBlock : Nat
  status : Status
  proverRequestID : String
  proofRequestTime : Nat
  l1BlockNumber : Nat
  l1BlockHash : String
  proof : List Nat
deriving DecidableEq, Repr

/-- A row insertion performed by NewEntryWithReqAddedTimestamp: the type
and the inclusive block range of the fresh UNREQ record. -/
structure NewEntry where
  type : ProofType
  startBlock : Nat
  endBlock : Nat
deriving DecidableEq, Repr

/-- Embeds RetryRequest of proposer/op/proposer/prove.go as the list of
rows it inserts, in insertion order.  An AGG failure re-inserts the same
range; a SPAN failure runs a two-iteration loop: it inserts
(tmpStart, tmpEnd) with tmpEnd = tmpStart + (endBlock - tmpStart) / 2,
then sets tmpStart = tmpEnd + 1 and tmpEnd = endBlock and inserts again.
All arithmetic is uint64. -/
def RetryRequest (req : ProofRequest) : List NewEntry :=
  if req.type = ProofType.AGG then
    [⟨ProofType.AGG, req.startBlock, req.endBlock⟩]
  else
    let tmpStart := req.startBlock
    let tmpEnd := add64 tmpStart (sub64 req.endBlock tmpStart / 2)
    [⟨ProofType.SPAN, tmpStart, tmpEnd⟩,
     ⟨ProofType.SPAN, add64 tmpEnd 1, req.endBlock⟩]

/-- C1: for a SPAN request with range [s, e], e > s (both valid uint64
values), RetryRequest inserts exactly two fresh SPAN records with ranges
[s, s + (e - s) / 2] and [s + (e - s) / 2 + 1, e], and these two ranges
partition [s, e] with no gap and no overlap. -/
theorem retryRequest_span_splits_in_halves (req : ProofRequest)
    (htype : req.type = ProofType.SPAN)
    (hlt : req.startBlock < req.endBlock)
    (hub : req.endBlock < U64) :
    RetryRequest req =
      [⟨ProofType.SPAN, req.startBlock,
          req.startBlock + (req.endBlock - req.startBlock) / 2⟩,
       ⟨ProofType.SPAN,
          req.startBlock + (req.endBlock - req.startBlock) / 2 + 1,
          req.endBlock⟩] ∧
    req.startBlock ≤ req.startBlock + (req.endBlock - req.startBlock) / 2 ∧
    req.startBlock + (req.endBlock - req.startBlock) / 2 < req.endBlock ∧
    Finset.Icc req.startBlock
        (req.startBlock + (req.endBlock - req.startBlock) / 2) ∪
      Finset.Icc (req.startBlock + (req.endBlock - req.startBlock) / 2 + 1)
        req.endBlock = Finset.Icc req.startBlock req.endBlock ∧
    Disjoint
      (Finset.Icc req.startBlock
        (req.startBlock + (req.endBlock - req.startBlock) / 2))
      (Finset.Icc (req.startBlock + (req.endBlock - req.startBlock) / 2 + 1)
        req.endBlock) := by
  set s := req.startBlock with hs
  set e := req.endBlock with he
  set m := s + (e - s) / 2 with hm
  have hsub : sub64 e s = e - s := sub64_eq_of_le e s (Nat.le_of_lt hlt) hub
  have hmlt : m < e := by rw [hm]; omega
  have hmle : s ≤ m := by rw [hm]; omega
  have hadd1 : add64 s ((e - s) / 2) = m := by
    have : s + (e - s) / 2 < U64 := lt_of_le_of_lt (Nat.le_of_lt hmlt) hub
    simpa [hm] using add64_eq_of_lt s ((e - s) / 2) this
  have hadd2 : add64 m 1 = m + 1 := by
    have : m + 1 < U64 := by omega
    exact add64_eq_of_lt m 1 this
  refine ⟨?_, hmle, hmlt, ?_, ?_⟩
  · simp only [RetryRequest, htype]
    simp [hsub, hadd1, hadd2]
  · ext x
    simp only [Finset.mem_union, Finset.mem_Icc]
    omega
  · rw [Finset.disjoint_left]
    intro x hx hx2
    simp only [Finset.mem_Icc] at hx hx2
    omega

/-- Witness for C1 on scenario A of the spec: the SPAN record [100, 199]
is split into [100, 149] and [150, 199], which partition [100, 199]. -/
theorem retryRequest_span_splits_in_halves_witness :
    RetryRequest ⟨1, ProofType.SPAN, 100, 199, Status.FAILED, "", 0, 0, "", []⟩ =
      [⟨ProofType.SPAN, 100, 149⟩, ⟨ProofType.SPAN, 150, 199⟩] ∧
    (100 : Nat) ≤ 149 ∧ (149 : Nat) < 199 ∧
    Finset.Icc (100 : Nat) 149 ∪ Finset.Icc 150 199 = Finset.Icc 100 199 ∧
    Disjoint (Finset.Icc (100 : Nat) 149) (Finset.Icc 150 199) := by
  have h := retryRequest_span_splits_in_halves
    ⟨1, ProofType.SPAN, 100, 199, Status.FAILED, "", 0, 0, "", []⟩
    rfl (by decide) (by decide)
  simpa using h

/-- C2: the code does not guard the single-block case.  On a SPAN record
with range [7, 7] RetryRequest does split: it inserts the record [7, 7]
and a second, inverted record [8, 7] whose start exceeds its end, and it
signals no error. -/
theorem retryRequest_single_block_splits_inverted :
    RetryRequest ⟨1, ProofType.SPAN, 7, 7, Status.FAILED, "", 0, 0, "", []⟩ =
      [⟨ProofType.SPAN, 7, 7⟩, ⟨ProofType.SPAN, 8, 7⟩] ∧
    (8 : Nat) > 7 := by
  constructor
  · simp [RetryRequest, add64, sub64, U64]
  · decide

/-- The action ProcessPendingProofs takes for one pending record, given
the status the prover reported. -/
inductive PendingAction where
  | addProof (proof : List Nat)
  | failAndRetry
  | unchanged
deriving DecidableEq, Repr

/-- Embeds the per-record body of the second loop of ProcessPendingProofs
in proposer/op/proposer/prove.go.  Given the wall clock now, the
configured proof timeout, and the status and proof bytes the prover
returned for the record, it selects the action: on PROOF_FULFILLED the
proof is stored via AddProof (the record completes, even when the
timeout has also elapsed); otherwise, when now exceeds
proofRequestTime + proofTimeout (uint64 addition) or the status is
PROOF_UNCLAIMED, the record is set to FAILED and RetryRequest is
applied; in every other case nothing happens. -/
def processPendingRecord (now proofTimeout : Nat) (status : String)
    (proof : List Nat) (req : ProofRequest) : PendingAction :=
  if status = "PROOF_FULFILLED" then
    PendingAction.addProof proof
  else if now > add64 req.proofRequestTime proofTimeout ∨
      status = "PROOF_UNCLAIMED" then
    PendingAction.failAndRetry
  else
    PendingAction.unchanged

/-- Modelled from the spec: ledger op update_status. -/
def updateStatus (recs : List ProofRequest) (id : Nat) (st : Status) :
    List ProofRequest :=
  recs.map fun r => if r.id = id then { r with status := st } else r

/-- Modelled from the spec: ledger op add_proof, which sets the proof
bytes and transitions the record to COMPLETE atomically. -/
def addProofDB (recs : List ProofRequest) (id : Nat) (bytes : List Nat) :
    List ProofRequest :=
  recs.map fun r =>
    if r.id = id then { r with proof := bytes, status := Status.COMPLETE }
    else r

/-- Modelled from the spec: ledger op set_prover_request_id. -/
def setProverRequestID (recs : List ProofRequest) (id : Nat) (s : String) :
    List ProofRequest :=
  recs.map fun r => if r.id = id then { r with proverRequestID := s } else r

/-- Modelled from the spec: ids are assigned monotonically increasing at
insert, so a fresh id is one more than the largest id present. -/
def nextId (recs : List ProofRequest) : Nat :=
  (recs.map (·.id)).foldl max 0 + 1

/-- Modelled from the spec: ledger op insert
(NewEntryWithReqAddedTimestamp): appends a fresh UNREQ record with empty
prover request id and empty proof. -/
def newEntry (recs : List ProofRequest) (t : ProofType) (s e : Nat) :
    List ProofRequest :=
  recs ++ [⟨nextId recs, t, s, e, Status.UNREQ, "", 0, 0, "", []⟩]

/-- Inserts the rows produced by RetryRequest, in order. -/
def insertEntries (recs : List ProofRequest) : List NewEntry → List ProofRequest
  | [] => recs
  | en :: rest => insertEntries (newEntry recs en.type en.startBlock en.endBlock) rest

/-- Applies the selected pass A action to the ledger: addProof stores
the bytes and completes the record, failAndRetry marks it FAILED and
inserts the RetryRequest successors, unchanged leaves the ledger as is. -/
def applyPendingAction (recs : List ProofRequest) (req : ProofRequest) :
    PendingAction → List ProofRequest
  | PendingAction.addProof bytes => addProofDB recs req.id bytes
  | PendingAction.failAndRetry =>
      insertEntries (updateStatus recs req.id Status.FAILED) (RetryRequest req)
  | PendingAction.unchanged => recs

/-- C3: pass A per-record dispatch.  A PROOF_FULFILLED status always
stores the proof (even when the timeout has elapsed, since that branch
is tested first); otherwise elapsed timeout or PROOF_UNCLAIMED fails and
retries the record; otherwise the record is left unchanged.  Moreover
applying the addProof action sets the matching record to COMPLETE with
the given proof bytes. -/
theorem processPendingProofs_dispatch (now proofTimeout : Nat)
    (status : String) (proof : List Nat) (req : ProofRequest)
    (recs : List ProofRequest) :
    (status = "PROOF_FULFILLED" →
      processPendingRecord now proofTimeout status proof req =
        PendingAction.addProof proof) ∧
    (status ≠ "PROOF_FULFILLED" →
      (now > add64 req.proofRequestTime proofTimeout ∨
        status = "PROOF_UNCLAIMED") →
      processPendingRecord now proofTimeout status proof req =
        PendingAction.failAndRetry) ∧
    (status ≠ "PROOF_FULFILLED" →
      ¬ now > add64 req.proofRequestTime proofTimeout →
      status ≠ "PROOF_UNCLAIMED" →
      processPendingRecord now proofTimeout status proof req =
        PendingAction.unchanged) ∧
    (∀ r, r ∈ applyPendingAction recs req (PendingAction.addProof proof) →
      r.id = req.id → r.status = Status.COMPLETE ∧ r.proof = proof) := by
  refine ⟨?_, ?_, ?_, ?_⟩
  · intro h
    simp [processPendingRecord, h]
  · intro h1 h2
    simp [processPendingRecord, h1, h2]
  · intro h1 h2 h3
    simp [processPendingRecord, h1, h2, h3]
  · intro r hr hid
    simp only [applyPendingAction, addProofDB, List.mem_map] at hr
    obtain ⟨r0, _, hr0⟩ := hr
    by_cases hcase : r0.id = req.id
    · simp [hcase] at hr0
      rw [← hr0]
      exact ⟨rfl, rfl⟩
    · simp [hcase] at hr0
      rw [← hr0] at hid
      exact absurd hid hcase

/-- Witness for C3: a PROOF_FULFILLED record is completed even though
its timeout has also elapsed (now = 100 exceeds 0 + 10), and applying
the action marks the matching ledger row COMPLETE with the bytes. -/
theorem processPendingProofs_dispatch_witness :
    processPendingRecord 100 10 "PROOF_FULFILLED" [1, 2]
        ⟨1, ProofType.SPAN, 5, 9, Status.REQ, "pid", 0, 0, "", []⟩ =
      PendingAction.addProof [1, 2] ∧
    100 > add64 0 10 := by
  refine ⟨?_, by decide⟩
  exact (processPendingProofs_dispatch 100 10 "PROOF_FULFILLED" [1, 2]
    ⟨1, ProofType.SPAN, 5, 9, Status.REQ, "pid", 0, 0, "", []⟩ []).1 rfl

/-- Modelled from the spec: ledger op next_unrequested returns one UNREQ
record, lowest id first.  The model keeps ledger rows in id order (rows
are only appended with a fresh, larger id), so the first UNREQ row of
the list is the lowest-id one. -/
def getNextUnrequestedProof (recs : List ProofRequest) : Option ProofRequest :=
  recs.find? fun r => r.status = Status.UNREQ

/-- Modelled from the spec: ledger op count_by_status
(GetNumberOfProofsWithStatus). -/
def countWithStatus (recs : List ProofRequest) (st : Status) : Nat :=
  (recs.filter fun r => r.status = st).length

/-- Modelled from the spec: ledger op attach_l1_checkpoint
(AddL1BlockInfoToAggRequest) updates the matching AGG record with the
checkpointed L1 block number and hash. -/
def attachL1Checkpoint (recs : List ProofRequest) (s e num : Nat)
    (hash : String) : List ProofRequest :=
  recs.map fun r =>
    if r.type = ProofType.AGG ∧ r.startBlock = s ∧ r.endBlock = e then
      { r with l1BlockNumber := num, l1BlockHash := hash }
    else r

/-- Outcomes of the external collaborators RequestQueuedProofs consults:
the checkpoint operation (checkpointBlockHash), the ledger update
AddL1BlockInfoToAggRequest, and the prover request performed by the
spawned task (RequestOPSuccinctProof), together with the prover id the
server returns on success. -/
structure QPOracles where
  checkpoint : Except String (Nat × String)
  addL1 : Except String Unit
  requestOK : Bool
  proofId : String

/-- The spawned task of RequestQueuedProofs, applied synchronously: the
record is optimistically moved to REQ; if the prover request succeeds
the prover request id is stored, otherwise the record is moved to
FAILED and the RetryRequest successors are inserted. -/
def goRequest (or : QPOracles) (recs : List ProofRequest)
    (p : ProofRequest) : List ProofRequest :=
  let recs1 := updateStatus recs p.id Status.REQ
  if or.requestOK then setProverRequestID recs1 p.id or.proofId
  else insertEntries (updateStatus recs1 p.id Status.FAILED) (RetryRequest p)

/-- Embeds RequestQueuedProofs of proposer/op/proposer/prove.go as one
step on the ledger.  It takes the single next UNREQ record (or returns
with the ledger unchanged).  For an AGG record without an L1 checkpoint
it runs checkpointBlockHash (whose error is returned) and then
AddL1BlockInfoToAggRequest, and returns nil in the same tick — note the
code only logs an AddL1BlockInfoToAggRequest error and still returns
nil.  For a non-AGG record it first checks the concurrency cap
countWithStatus REQ against MaxConcurrentProofRequests and yields when
reached.  Otherwise the spawned request task runs. -/
def RequestQueuedProofs (maxConcurrent : Nat) (or : QPOracles)
    (recs : List ProofRequest) : Except String (List ProofRequest) :=
  match getNextUnrequestedProof recs with
  | none => Except.ok recs
  | some p =>
    if p.type = ProofType.AGG then
      if p.l1BlockHash = "" then
        match or.checkpoint with
        | Except.error e => Except.error e
        | Except.ok (num, hash) =>
          match or.addL1 with
          | Except.error _ => Except.ok recs
          | Except.ok _ =>
            Except.ok (attachL1Checkpoint recs p.startBlock p.endBlock num hash)
      else Except.ok (goRequest or recs p)
    else
      if maxConcurrent ≤ countWithStatus recs Status.REQ then
        Except.ok recs
      else Except.ok (goRequest or recs p)

/-- One tick of pass B seen as a ledger transformer: the post-state of
RequestQueuedProofs, with the prior ledger kept when the pass returns an
error (an erroring pass performs no further mutation). -/
def tickB (maxConcurrent : Nat) (or : QPOracles)
    (recs : List ProofRequest) : List ProofRequest :=
  match RequestQueuedProofs maxConcurrent or recs with
  | Except.ok r => r
  | Except.error _ => recs

/-- Oracles for a tick on which every external operation succeeds. -/
def happyOr : QPOracles :=
  ⟨Except.ok (0, "0xl1"), Except.ok (), true, "prover-id"⟩

/-- Three UNREQ SPAN records, the ledger of scenario C of the spec. -/
def threeSpans : List ProofRequest :=
  [⟨1, ProofType.SPAN, 0, 9, Status.UNREQ, "", 0, 0, "", []⟩,
   ⟨2, ProofType.SPAN, 10, 19, Status.UNREQ, "", 0, 0, "", []⟩,
   ⟨3, ProofType.SPAN, 20, 29, Status.UNREQ, "", 0, 0, "", []⟩]

/-- C4 amended: one invocation of pass B handles at most the single
next UNREQ record, so with max_concurrent_span_requests = 2 and three
UNREQ spans one invocation leaves exactly one record in REQ, a second
invocation reaches two, and a third invocation is blocked by the cap:
two records stay REQ and the third stays UNREQ.  In general pass B
never transitions a SPAN record to REQ once countWithStatus REQ has
reached the cap: the ledger is returned unchanged. -/
theorem requestQueuedProofs_one_record_per_tick_and_cap :
    (∀ (m : Nat) (g : QPOracles) (recs : List ProofRequest)
        (p : ProofRequest),
      getNextUnrequestedProof recs = some p →
      p.type = ProofType.SPAN →
      m ≤ countWithStatus recs Status.REQ →
      RequestQueuedProofs m g recs = Except.ok recs) ∧
    countWithStatus (tickB 2 happyOr threeSpans) Status.REQ = 1 ∧
    countWithStatus (tickB 2 happyOr (tickB 2 happyOr threeSpans))
      Status.REQ = 2 ∧
    countWithStatus
      (tickB 2 happyOr (tickB 2 happyOr (tickB 2 happyOr threeSpans)))
      Status.REQ = 2 ∧
    countWithStatus
      (tickB 2 happyOr (tickB 2 happyOr (tickB 2 happyOr threeSpans)))
      Status.UNREQ = 1 := by
  refine ⟨?_, by decide, by decide, by decide, by decide⟩
  intro m g recs p hnext htype hcap
  unfold RequestQueuedProofs
  rw [hnext]
  simp [htype, hcap]

/-- Ledger already at the concurrency cap: two SPAN records in REQ and
one further UNREQ SPAN record. -/
def cappedLedger : List ProofRequest :=
  [⟨1, ProofType.SPAN, 0, 9, Status.REQ, "a", 0, 0, "", []⟩,
   ⟨2, ProofType.SPAN, 10, 19, Status.REQ, "b", 0, 0, "", []⟩,
   ⟨3, ProofType.SPAN, 20, 29, Status.UNREQ, "", 0, 0, "", []⟩]

/-- Witness for C4: at the cap of 2 with two REQ spans, pass B returns
the ledger unchanged. -/
theorem requestQueuedProofs_cap_witness :
    RequestQueuedProofs 2 happyOr cappedLedger = Except.ok cappedLedger :=
  requestQueuedProofs_one_record_per_tick_and_cap.1 2 happyOr cappedLedger
    ⟨3, ProofType.SPAN, 20, 29, Status.UNREQ, "", 0, 0, "", []⟩
    rfl rfl (by decide)

/-- Counterexample for C4 as stated: with the cap at 2 and three UNREQ
spans, one invocation of RequestQueuedProofs moves exactly one record
to REQ, not two. -/
theorem requestQueuedProofs_one_tick_single_REQ :
    countWithStatus threeSpans Status.UNREQ = 3 ∧
    countWithStatus threeSpans Status.REQ = 0 ∧
    countWithStatus (tickB 2 happyOr threeSpans) Status.REQ = 1 ∧
    countWithStatus (tickB 2 happyOr threeSpans) Status.REQ ≠ 2 := by
  decide

/-- A single AGG record with no L1 checkpoint attached yet. -/
def aggNoL1 : List ProofRequest :=
  [⟨1, ProofType.AGG, 100, 200, Status.UNREQ, "", 0, 0, "", []⟩]

/-- Oracles on which AddL1BlockInfoToAggRequest fails while everything
else succeeds. -/
def failingAttachOr : QPOracles :=
  ⟨Except.ok (55, "0xabc"), Except.error "attach failed", true, "prover-id"⟩

/-- C7: RequestQueuedProofs swallows a failure of
AddL1BlockInfoToAggRequest.  When the next UNREQ record is an AGG
without L1 info and the attach operation errors, the code only logs and
returns nil, so the pass reports success with the ledger unchanged
instead of surfacing the ledger error. -/
theorem requestQueuedProofs_swallows_attach_error :
    failingAttachOr.addL1 = Except.error "attach failed" ∧
    RequestQueuedProofs 10 failingAttachOr aggNoL1 = Except.ok aggNoL1 :=
  ⟨rfl, rfl⟩

/-- The rollup configuration fields the batch decoder utilities read:
genesis L2 time, L2 block time and genesis L2 block number. -/
structure RollupCfg where
  l2GenesisTime : Nat
  l2BlockTime : Nat
  l2GenesisBlock : Nat
deriving DecidableEq, Repr

/-- Embeds TimestampToBlock of the batch decoder utilities: the L2 block
number for an L2 timestamp, ((ts - genesisTime) / blockTime) +
genesisBlock in uint64 arithmetic.  Division uses Nat semantics; the Go
code would panic on a zero block time, a case no claim concerns. -/
def TimestampToBlock (cfg : RollupCfg) (l2Timestamp : Nat) : Nat :=
  add64 (sub64 l2Timestamp cfg.l2GenesisTime / cfg.l2BlockTime)
    cfg.l2GenesisBlock

/-- A batch extracted from a ready channel.  AsSpanBatch succeeds
exactly on the span constructor, which carries the batch timestamp and
its block count; the singular constructor stands for any batch on which
AsSpanBatch fails. -/
inductive Batch where
  | span (timestamp blockCount : Nat)
  | singular (timestamp : Nat)
deriving DecidableEq, Repr

/-- A range of L2 blocks covered by a span batch (SpanBatchRange of the
batch decoder utilities). -/
structure SpanBatchRange where
  start : Nat
  end' : Nat
deriving DecidableEq, Repr

/-- Embeds the inner batch loop of GetSpanBatchRanges for one channel.
Sum.inl is the early return taken on a batch that cannot be converted to
a span batch: the code appends the whole requested range to the ranges
accumulated so far and returns.  Sum.inr is the accumulator after the
loop finished normally; span batches outside the requested window are
skipped, the others are clipped to the window. -/
def processChannelBatches (cfg : RollupCfg) (startBlock endBlock : Nat)
    (acc : List SpanBatchRange) :
    List Batch → List SpanBatchRange ⊕ List SpanBatchRange
  | [] => Sum.inr acc
  | b :: rest =>
    match b with
    | Batch.singular _ => Sum.inl (acc ++ [⟨startBlock, endBlock⟩])
    | Batch.span ts n =>
      let batchStartBlock := TimestampToBlock cfg ts
      let batchEndBlock := sub64 (add64 batchStartBlock n) 1
      if batchStartBlock > endBlock ∨ batchEndBlock < startBlock then
        processChannelBatches cfg startBlock endBlock acc rest
      else
        processChannelBatches cfg startBlock endBlock
          (acc ++ [⟨max startBlock batchStartBlock,
                    min endBlock batchEndBlock⟩]) rest

/-- Embeds GetSpanBatchRanges of the batch decoder utilities over the
reassembled channels (given in iteration order, each as its batch
list).  A channel with no batches is fatal (log.Fatalf).  Otherwise its
batches are folded over the shared accumulator; an early return from
the batch loop becomes the overall result.  The maxSpanBatchDeviation
argument is carried but, as in the source, never read. -/
def GetSpanBatchRanges (cfg : RollupCfg)
    (startBlock endBlock maxSpanBatchDeviation : Nat) :
    List (List Batch) → List SpanBatchRange →
    Except String (List SpanBatchRange)
  | [], acc => Except.ok acc
  | ch :: rest, acc =>
    if ch = [] then Except.error "no span batches in channel"
    else
      match processChannelBatches cfg startBlock endBlock acc ch with
      | Sum.inl rs => Except.ok rs
      | Sum.inr acc2 =>
        GetSpanBatchRanges cfg startBlock endBlock maxSpanBatchDeviation
          rest acc2

/-- C5 amended: on the first batch that cannot be parsed as a span
batch, GetSpanBatchRanges appends the conservative range
[l2_start, l2_end] to the ranges accumulated so far and stops: the
result is that accumulator with [l2_start, l2_end] as its last element,
and no remaining batch or channel is processed. -/
theorem getSpanBatchRanges_fallback_appends_and_stops :
    (∀ (cfg : RollupCfg) (s e ts : Nat) (rest : List Batch)
        (acc : List SpanBatchRange),
      processChannelBatches cfg s e acc (Batch.singular ts :: rest) =
        Sum.inl (acc ++ [⟨s, e⟩])) ∧
    (∀ (cfg : RollupCfg) (s e d : Nat) (ch : List Batch)
        (chans : List (List Batch)) (acc rs : List SpanBatchRange),
      ch ≠ [] →
      processChannelBatches cfg s e acc ch = Sum.inl rs →
      GetSpanBatchRanges cfg s e d (ch :: chans) acc = Except.ok rs) := by
  constructor
  · intro cfg s e ts rest acc
    simp [processChannelBatches]
  · intro cfg s e d ch chans acc rs hne hinl
    unfold GetSpanBatchRanges
    rw [if_neg hne, hinl]

/-- Witness for C5: with the range [0, 5] already accumulated, a
channel whose only batch is not a span batch makes the derivation stop
with the accumulated range followed by the fallback [10, 20]. -/
theorem getSpanBatchRanges_fallback_witness :
    GetSpanBatchRanges ⟨0, 1, 0⟩ 10 20 1000000
        [[Batch.singular 99]] [⟨0, 5⟩] =
      Except.ok [⟨0, 5⟩, ⟨10, 20⟩] :=
  getSpanBatchRanges_fallback_appends_and_stops.2 ⟨0, 1, 0⟩ 10 20 1000000
    [Batch.singular 99] [] [⟨0, 5⟩] [⟨0, 5⟩, ⟨10, 20⟩]
    (List.cons_ne_nil _ _)
    (getSpanBatchRanges_fallback_appends_and_stops.1 ⟨0, 1, 0⟩ 10 20 99 []
      [⟨0, 5⟩])

/-- Counterexample for C5 as stated: a channel holding a valid span
batch (covering [10, 14] of the requested window [10, 20]) followed by
an unparseable batch yields the two-element result consisting of the
already derived range and the appended fallback, not a one-element
result [l2_start, l2_end]. -/
theorem getSpanBatchRanges_partial_result_before_fallback :
    GetSpanBatchRanges ⟨0, 1, 0⟩ 10 20 1000000
        [[Batch.span 10 5, Batch.singular 99]] [] =
      Except.ok [⟨10, 14⟩, ⟨10, 20⟩] ∧
    ([⟨10, 14⟩, ⟨10, 20⟩] : List SpanBatchRange).length ≠ 1 := by
  exact ⟨rfl, by decide⟩

/-- Embeds GetL1SearchBoundaries of the batch decoder utilities, with
the RPC reads abstracted as inputs: the L1 origin number of the start
block output, the timestamps of the L1 blocks at that origin and at the
origin minus one, and the L1 origin number of the end block output.
The code computes l1BlockTime as the uint64 timestamp difference and
then evaluates uint64(60 / l1BlockTime) * 10 with no guard; when the
difference is zero the Go division panics at runtime, embedded here as
the none outcome.  Otherwise it returns the start origin and the end
origin extended by (60 / l1BlockTime) * 10 blocks. -/
def GetL1SearchBoundaries (startL1Origin tsAtOrigin tsAtOriginMinus1
    endL1Origin : Nat) : Option (Nat × Nat) :=
  let l1BlockTime := sub64 tsAtOrigin tsAtOriginMinus1
  if l1BlockTime = 0 then none
  else some (startL1Origin, add64 endL1Origin (mul64 (60 / l1BlockTime) 10))

/-- C6 amended: for a positive L1 block time t the upper search bound is
the end L1 origin plus floor(60 / t) * 10 blocks (not floor(600 / t));
the two agree at t = 12, where the extension is exactly 50 blocks. -/
theorem getL1SearchBoundaries_extension (startL1Origin tsAtOrigin
    tsAtOriginMinus1 endL1Origin : Nat)
    (ht : sub64 tsAtOrigin tsAtOriginMinus1 ≠ 0) :
    GetL1SearchBoundaries startL1Origin tsAtOrigin tsAtOriginMinus1
        endL1Origin =
      some (startL1Origin,
        add64 endL1Origin
          ((60 / sub64 tsAtOrigin tsAtOriginMinus1) * 10)) ∧
    GetL1SearchBoundaries 100 1012 1000 5000 = some (100, 5050) := by
  constructor
  · simp only [GetL1SearchBoundaries, if_neg ht]
    have hle : 60 / sub64 tsAtOrigin tsAtOriginMinus1 ≤ 60 :=
      Nat.div_le_self 60 _
    have : mul64 (60 / sub64 tsAtOrigin tsAtOriginMinus1) 10 =
        (60 / sub64 tsAtOrigin tsAtOriginMinus1) * 10 := by
      unfold mul64 U64
      exact Nat.mod_eq_of_lt (by omega)
    rw [this]
  · decide

/-- Witness for C6 amended: with consecutive L1 timestamps 1000 and
1007 (block time 7) an end origin of 5000 is extended by
(60 / 7) * 10 = 80 blocks to 5080. -/
theorem getL1SearchBoundaries_extension_witness :
    GetL1SearchBoundaries 100 1007 1000 5000 = some (100, 5080) := by
  have h := (getL1SearchBoundaries_extension 100 1007 1000 5000
    (by decide)).1
  simpa using h

/-- Counterexample for C6 as stated: with L1 block time 7 the code
extends an end origin of 5000 to 5080 = 5000 + (60 / 7) * 10, whereas
the claimed extension floor(600 / 7) = 85 would give 5085. -/
theorem getL1SearchBoundaries_not_600_div :
    GetL1SearchBoundaries 100 1007 1000 5000 = some (100, 5080) ∧
    (5080 : Nat) ≠ 5000 + 600 / 7 := by
  exact ⟨by decide, by decide⟩

/-- C10: when the two consecutive L1 blocks at the start origin carry
equal timestamps, the computed L1 block time is zero and
GetL1SearchBoundaries performs the unguarded division 60 / 0, a Go
runtime panic (the none outcome of the embedding); no error branch for
this case exists in the code. -/
theorem getL1SearchBoundaries_div_by_zero (startL1Origin ts
    endL1Origin : Nat) :
    sub64 ts ts = 0 ∧
    GetL1SearchBoundaries startL1Origin ts ts endL1Origin = none := by
  refine ⟨sub64_self ts, ?_⟩
  simp [GetL1SearchBoundaries, sub64_self]

/-- Value of one hex digit, as the hex decoder of the Go standard
library accepts them: 0-9, a-f, A-F. -/
def hexDigitVal (c : Char) : Option Nat :=
  if '0' ≤ c ∧ c ≤ '9' then some (c.toNat - '0'.toNat)
  else if 'a' ≤ c ∧ c ≤ 'f' then some (c.toNat - 'a'.toNat + 10)
  else if 'A' ≤ c ∧ c ≤ 'F' then some (c.toNat - 'A'.toNat + 10)
  else none

/-- Hex decoding of a digit string into bytes, as hexutil.Decode does
after the 0x prefix: two digits per byte, failing on an odd number of
digits or an invalid digit. -/
def hexBytes : List Char → Option (List Nat)
  | [] => some []
  | [_] => none
  | c1 :: c2 :: rest =>
    match hexDigitVal c1, hexDigitVal c2, hexBytes rest with
    | some hi, some lo, some bs => some ((16 * hi + lo) :: bs)
    | _, _, _ => none

/-- Removes a leading 0x, as strings.TrimPrefix of Go does: only when
the string starts with exactly these two characters. -/
def trim0x (s : List Char) : List Char :=
  if s.take 2 = ['0', 'x'] then s.drop 2 else s

/-- Left-pads with the zero character to 64 characters, the effect of
formatting with the width-64 zero-padded string verb of fmt.Sprintf;
longer strings are kept unchanged. -/
def padTo64 (s : List Char) : List Char :=
  List.replicate (64 - s.length) '0' ++ s

/-- Embeds CustomBytes32.UnmarshalJSON of the batch decoder utilities on
the already unquoted JSON string: trim a leading 0x, left-pad the digits
with zeros to 64 characters, hex-decode (the code re-attaches 0x and
calls common.ParseHexOrString, which with the prefix present is exactly
hex decoding), and reject any byte string whose length is not 32. -/
def customBytes32Decode (s : List Char) : Except String (List Nat) :=
  let t := padTo64 (trim0x s)
  match hexBytes t with
  | none => Except.error "invalid hex"
  | some bs =>
    if bs.length ≠ 32 then Except.error "invalid length for Bytes32"
    else Except.ok bs

/-- C8: decoding the minimal hex string 0x1 equals decoding the fully
left-padded 64-digit form; in general decoding 0x followed by at most
64 hex digits equals decoding the left-zero-padded 64-digit form of the
same digits; and any decoded byte string whose length is not exactly 32
is rejected. -/
theorem customBytes32_decode_pads_left :
    customBytes32Decode ['0', 'x', '1'] =
      customBytes32Decode ('0' :: 'x' :: (List.replicate 63 '0' ++ ['1'])) ∧
    (∀ ds : List Char, ds.length ≤ 64 →
      customBytes32Decode ('0' :: 'x' :: ds) =
        customBytes32Decode
          ('0' :: 'x' :: (List.replicate (64 - ds.length) '0' ++ ds))) ∧
    (∀ (s : List Char) (bs : List Nat),
      hexBytes (padTo64 (trim0x s)) = some bs → bs.length ≠ 32 →
      customBytes32Decode s = Except.error "invalid length for Bytes32") := by
  refine ⟨rfl, ?_, ?_⟩
  · intro ds hlen
    have htrim : ∀ t : List Char, trim0x ('0' :: 'x' :: t) = t := by
      intro t
      simp [trim0x]
    have hlen2 : (List.replicate (64 - ds.length) '0' ++ ds).length = 64 := by
      simp only [List.length_append, List.length_replicate]
      omega
    have hpad : padTo64 (List.replicate (64 - ds.length) '0' ++ ds) =
        List.replicate (64 - ds.length) '0' ++ ds := by
      unfold padTo64
      rw [hlen2]
      simp
    unfold customBytes32Decode
    rw [htrim, htrim, hpad]
    rfl
  · intro s bs hdec hne
    simp [customBytes32Decode, hdec, hne]

/-- Witness for C8: the general padding law applied to the single digit
1 gives exactly the 0x1 case, and the length rejection fires on the
66-digit input of 33 bytes. -/
theorem customBytes32_decode_pads_left_witness :
    customBytes32Decode ('0' :: 'x' :: ['1']) =
      customBytes32Decode
        ('0' :: 'x' :: (List.replicate 63 '0' ++ ['1'])) ∧
    customBytes32Decode ('0' :: 'x' :: List.replicate 66 'a') =
      Except.error "invalid length for Bytes32" := by
  constructor
  · exact customBytes32_decode_pads_left.2.1 ['1'] (by decide)
  · exact customBytes32_decode_pads_left.2.2
      ('0' :: 'x' :: List.replicate 66 'a')
      (List.replicate 33 170) (by decide) (by decide)

/-- The JSON body of a span proof request, SpanProofRequest of prove.go:
the start and end block fields sent to request_span_proof. -/
structure SpanProofRequest where
  start : Nat
  end' : Nat
deriving DecidableEq, Repr

/-- Embeds the request body RequestSpanProof marshals: start = l2Start
and end = l2End, exactly its two arguments. -/
def RequestSpanProofBody (l2Start l2End : Nat) : SpanProofRequest :=
  ⟨l2Start, l2End⟩

/-- Embeds the body computation of RequestOPSuccinctProof for a SPAN
record: prevConfirmedBlock = startBlock - 1 in uint64 arithmetic (the
subtraction wraps), and the span request is sent for
(prevConfirmedBlock, endBlock). -/
def RequestOPSuccinctProofSpanBody (p : ProofRequest) :
    Option SpanProofRequest :=
  let prevConfirmedBlock := sub64 p.startBlock 1
  if p.type = ProofType.SPAN then
    some (RequestSpanProofBody prevConfirmedBlock p.endBlock)
  else none

/-- C9: for a SPAN record with range [s, e], RequestOPSuccinctProof
sends the span request with body start = s - 1 computed in uint64
arithmetic (so (s + 2^64 - 1) mod 2^64, not s) and end = e; at s = 0
the start wraps to 2^64 - 1. -/
theorem requestOPSuccinctProof_start_minus_one (p : ProofRequest)
    (htype : p.type = ProofType.SPAN) (hs : p.startBlock < U64) :
    RequestOPSuccinctProofSpanBody p =
      some ⟨(p.startBlock + U64 - 1) % U64, p.endBlock⟩ ∧
    (p.startBlock = 0 → sub64 p.startBlock 1 = U64 - 1) := by
  have hsub : sub64 p.startBlock 1 = (p.startBlock + U64 - 1) % U64 := by
    unfold sub64 U64 at *
    omega
  constructor
  · simp [RequestOPSuccinctProofSpanBody, RequestSpanProofBody, htype, hsub]
  · intro h0
    rw [hsub, h0]
    unfold U64
    omega

/-- Witness for C9: a SPAN record starting at block 0 produces a span
request whose start field is 2^64 - 1. -/
theorem requestOPSuccinctProof_start_minus_one_witness :
    RequestOPSuccinctProofSpanBody
        ⟨1, ProofType.SPAN, 0, 50, Status.UNREQ, "", 0, 0, "", []⟩ =
      some ⟨18446744073709551615, 50⟩ := by
  have h := (requestOPSuccinctProof_start_minus_one
    ⟨1, ProofType.SPAN, 0, 50, Status.UNREQ, "", 0, 0, "", []⟩
    rfl (by decide)).1
  simpa [U64] using h
